import Mathlib

/-!
Shallow embedding of `platipy/imaging/registration/registration.py`
(image-registration orchestration on SimpleITK) and proofs about it.

Images are modelled as grid metadata (per-axis size, spacing, origin,
direction cosines, pixel type) together with a flattened list of rational
sample values.  Machine floating point is modelled by `ℚ`; Python's
`ZeroDivisionError` is modelled by `Option`/`Except`.  Library primitives
whose numerical content the claims do not touch (Gaussian smoothing,
value interpolation during resampling) are embedded as grid-exact
operations with the sample values passed through or supplied by an
explicit primitive parameter.
-/

namespace Platipy

/-- SimpleITK interpolator enum: `sitk.sitkNearestNeighbor = 1`
(the source docstrings state `1 = Nearest neighbour`). -/
def sitkNearestNeighbor : ℕ := 1

/-- SimpleITK interpolator enum: `sitk.sitkLinear = 2`. -/
def sitkLinear : ℕ := 2

/-- SimpleITK interpolator enum: `sitk.sitkBSpline = 3`. -/
def sitkBSpline : ℕ := 3

/-- An N-dimensional image: per-axis grid metadata plus flattened samples,
mirroring `SimpleITK.Image` (`GetSize`, `GetSpacing`, `GetOrigin`,
`GetDirection`, `GetPixelID`). -/
structure Image where
  size : List ℤ
  spacing : List ℚ
  origin : List ℚ
  direction : List ℚ
  pixelID : ℤ
  data : List ℚ
deriving DecidableEq, Repr

/-- `shrink_factor` argument of `smooth_and_resample`: the Python code
accepts a scalar number or a per-axis list. -/
inductive ShrinkFactor where
  | scalar (f : ℚ)
  | perAxis (fs : List ℚ)
deriving DecidableEq, Repr

/-- Python `int(x)` / numpy `astype(int)`: truncation towards zero. -/
def pyInt (x : ℚ) : ℤ := if 0 ≤ x then ⌊x⌋ else ⌈x⌉

/-- The new per-axis sizes computed by `smooth_and_resample`
(registration.py lines 401–409): `int(sz / float(sf) + 0.5)` where the
per-axis factor is the scalar `shrink_factor`, the per-axis list entry, or
(isotropic case) `shrink_factor / spacing`. -/
def newSizeList (img : Image) (sf : ShrinkFactor) (isotropic : Bool) : List ℤ :=
  if isotropic then
    match sf with
    | .scalar f =>
        (img.size.zip img.spacing).map
          (fun p => pyInt ((p.1 : ℚ) / (f / p.2) + 1/2))
    | .perAxis fs =>
        ((img.size.zip img.spacing).zip fs).map
          (fun p => pyInt ((p.1.1 : ℚ) / (p.2 / p.1.2) + 1/2))
  else
    match sf with
    | .scalar f => img.size.map (fun sz : ℤ => pyInt ((sz : ℚ) / f + 1/2))
    | .perAxis fs =>
        (img.size.zip fs).map (fun p => pyInt ((p.1 : ℚ) / p.2 + 1/2))

/-- One axis of the `new_spacing` list comprehension
(registration.py lines 411–414): `((sz − 1) * spc) / (new_sz − 1)`;
Python raises `ZeroDivisionError` when `new_sz = 1`, modelled as `none`. -/
def newSpacingAxis (sz : ℤ) (spc : ℚ) (newSz : ℤ) : Option ℚ :=
  if newSz - 1 = 0 then none
  else some (((sz - 1 : ℤ) : ℚ) * spc / ((newSz - 1 : ℤ) : ℚ))

/-- The full `new_spacing` list: fails (Python exception) as soon as any
axis divides by zero. -/
def newSpacingList : List (ℤ × ℚ) → List ℤ → Option (List ℚ)
  | [], _ => some []
  | _, [] => some []
  | (sz, spc) :: rest, newSz :: ns => do
      let s ← newSpacingAxis sz spc newSz
      let tail ← newSpacingList rest ns
      pure (s :: tail)

/-- `sitk.DiscreteGaussian`: smoothing leaves the grid metadata and pixel
type unchanged; the smoothed sample values are outside the scope of the
grid-level claims and are passed through. -/
def discreteGaussian (img : Image) (_variance : ℚ) (_maxKernelWidth : ℤ) : Image :=
  img

/-- `sitk.Resample` with an explicit target grid: the output image carries
exactly the requested size, spacing, origin, direction and pixel type;
sample interpolation is abstracted (values passed through). -/
def resampleToGrid (src : Image) (newSize : List ℤ) (_interp : ℕ)
    (origin : List ℚ) (spacing : List ℚ) (direction : List ℚ)
    (_fill : ℚ) (pid : ℤ) : Image :=
  { size := newSize, spacing := spacing, origin := origin,
    direction := direction, pixelID := pid, data := src.data }

/-- `smooth_and_resample(image, shrink_factor, smoothing_sigma,
isotropic_resample, resampler)` (registration.py lines 370–426): smooth if
`smoothing_sigma > 0`, compute the new size and spacing, and resample onto
the new grid keeping the input's origin, direction and pixel type.
Returns `none` when the spacing computation divides by zero. -/
def smooth_and_resample (image : Image) (shrink_factor : ShrinkFactor)
    (smoothing_sigma : ℚ) (isotropic_resample : Bool) (resampler : ℕ) :
    Option Image := do
  let smoothed :=
    if smoothing_sigma > 0 then
      discreteGaussian image (smoothing_sigma ^ 2)
        (pyInt ((image.spacing.map (fun i => 8 * smoothing_sigma * i)).foldr max 0))
    else image
  let ns := newSizeList image shrink_factor isotropic_resample
  let nspc ← newSpacingList (image.size.zip image.spacing) ns
  pure (resampleToGrid smoothed ns resampler image.origin nspc
    image.direction 0 image.pixelID)

/-- `control_point_spacing_distance_to_number(image, grid_spacing)`
(registration.py lines 103–110): per axis,
`(size * spacing / grid_spacing + 0.5).astype(int)`. -/
def control_point_spacing_distance_to_number (image : Image) (grid_spacing : ℚ) :
    List ℤ :=
  (image.size.zip image.spacing).map
    (fun p => pyInt ((p.1 : ℚ) * p.2 / grid_spacing + 1/2))

/-- `pyInt (x + 1/2)` is round-to-nearest for nonnegative `x`. -/
lemma pyInt_add_half_eq_round (x : ℚ) (hx : 0 ≤ x) : pyInt (x + 1/2) = round x := by
  rw [pyInt, if_pos (by linarith), round_eq]

/-- A successful `new_spacing` computation yields exactly
`(S − 1)·P / (new_size − 1)` per axis. -/
lemma newSpacingList_eq_zipWith :
    ∀ (pairs : List (ℤ × ℚ)) (ns : List ℤ) (spc : List ℚ),
    newSpacingList pairs ns = some spc →
    spc = List.zipWith (fun (p : ℤ × ℚ) (n : ℤ) => (((p.1 : ℚ) - 1) * p.2) / ((n : ℚ) - 1))
      pairs ns := by
  intro pairs
  induction pairs with
  | nil =>
    intro ns spc h
    simp only [newSpacingList, Option.some_inj] at h
    simpa using h.symm
  | cons p rest ih =>
    intro ns spc h
    cases ns with
    | nil =>
      simp only [newSpacingList, Option.some_inj] at h
      simpa using h.symm
    | cons n ns' =>
      obtain ⟨sz, spcq⟩ := p
      simp only [newSpacingList, bind, Option.pure_def, Option.bind_eq_some,
        Option.some_inj] at h
      obtain ⟨s, hs, tail, htail, h3⟩ := h
      unfold newSpacingAxis at hs
      split at hs
      · exact absurd hs (by simp)
      · simp only [Option.some_inj] at hs
        subst h3 hs
        rw [List.zipWith_cons_cons, ← ih ns' tail htail]
        push_cast
        ring_nf

/-- The `new_spacing` computation succeeds exactly when no considered axis
has new size 1 (the division by zero). -/
lemma newSpacingList_isSome_iff :
    ∀ (pairs : List (ℤ × ℚ)) (ns : List ℤ),
    (newSpacingList pairs ns).isSome ↔ ∀ n ∈ ns.take pairs.length, n ≠ 1 := by
  intro pairs
  induction pairs with
  | nil => intro ns; simp [newSpacingList]
  | cons p rest ih =>
    intro ns
    cases ns with
    | nil => simp [newSpacingList]
    | cons n ns' =>
      obtain ⟨sz, spcq⟩ := p
      by_cases hn : n = 1
      · subst hn
        simp [newSpacingList, newSpacingAxis, bind]
      · have hax : newSpacingAxis sz spcq n =
            some (((sz - 1 : ℤ) : ℚ) * spcq / ((n - 1 : ℤ) : ℚ)) := by
          unfold newSpacingAxis
          rw [if_neg (by omega)]
        simp only [newSpacingList, bind, hax, Option.some_bind, List.length_cons,
          List.take_succ_cons, List.mem_cons]
        constructor
        · intro h m hm
          rcases hm with hm | hm
          · subst hm; exact hn
          · cases htail : newSpacingList rest ns' with
            | none => rw [htail] at h; simp at h
            | some tail => exact ((ih ns').mp (by rw [htail]; rfl)) m hm
        · intro h
          have : (newSpacingList rest ns').isSome :=
            (ih ns').mpr (fun m hm => h m (Or.inr hm))
          cases htail : newSpacingList rest ns' with
          | none => rw [htail] at this; simp at this
          | some tail => rfl

/-- The list of new sizes is never longer than the zipped
size/spacing list (for an image whose spacing has one entry per axis). -/
lemma newSizeList_length_le (img : Image) (sf : ShrinkFactor) (iso : Bool)
    (hlen : img.spacing.length = img.size.length) :
    (newSizeList img sf iso).length ≤ (img.size.zip img.spacing).length := by
  have hz : (img.size.zip img.spacing).length = img.size.length := by
    rw [List.length_zip, hlen, min_self]
  rcases sf with f | fs <;> cases iso
  · rw [show newSizeList img (ShrinkFactor.scalar f) false
        = img.size.map (fun sz : ℤ => pyInt ((sz : ℚ) / f + 1/2)) from rfl,
      List.length_map, hz]
  · rw [show newSizeList img (ShrinkFactor.scalar f) true
        = (img.size.zip img.spacing).map
            (fun p => pyInt ((p.1 : ℚ) / (f / p.2) + 1/2)) from rfl,
      List.length_map]
  · rw [show newSizeList img (ShrinkFactor.perAxis fs) false
        = (img.size.zip fs).map (fun p => pyInt ((p.1 : ℚ) / p.2 + 1/2)) from rfl,
      List.length_map, List.length_zip, hz]
    exact min_le_left _ _
  · rw [show newSizeList img (ShrinkFactor.perAxis fs) true
        = ((img.size.zip img.spacing).zip fs).map
            (fun p => pyInt ((p.1.1 : ℚ) / (p.2 / p.1.2) + 1/2)) from rfl,
      List.length_map, List.length_zip]
    exact min_le_left _ _

/-- Claim C4 — `smooth_and_resample` with `isotropic_resample = false`
produces, for every image of per-axis size `S` and spacing `P` and every
scalar or per-axis shrink factor `f`, a grid with
`new_size = round (S / f)` per axis and
`new_spacing = (S − 1)·P / (new_size − 1)` exactly per axis, while
preserving the input's origin and direction. -/
theorem smooth_and_resample_grid_exact (image : Image) (sf : ShrinkFactor)
    (sigma : ℚ) (interp : ℕ) (out : Image)
    (hsz : ∀ z ∈ image.size, 0 ≤ z)
    (hf : match sf with
      | .scalar f => 0 < f
      | .perAxis fs => ∀ f ∈ fs, 0 < f)
    (h : smooth_and_resample image sf sigma false interp = some out) :
    out.size = (match sf with
      | .scalar f => image.size.map (fun sz : ℤ => round ((sz : ℚ) / f))
      | .perAxis fs => (image.size.zip fs).map (fun p => round ((p.1 : ℚ) / p.2))) ∧
    out.spacing = List.zipWith
      (fun (p : ℤ × ℚ) (n : ℤ) => (((p.1 : ℚ) - 1) * p.2) / ((n : ℚ) - 1))
      (image.size.zip image.spacing) out.size ∧
    out.origin = image.origin ∧ out.direction = image.direction := by
  simp only [smooth_and_resample, bind, Option.pure_def, Option.bind_eq_some,
    Option.some_inj] at h
  obtain ⟨nspc, hnspc, hout⟩ := h
  subst hout
  refine ⟨?_, ?_, rfl, rfl⟩
  · cases sf with
    | scalar f =>
      show newSizeList image (ShrinkFactor.scalar f) false
        = image.size.map (fun sz : ℤ => round ((sz : ℚ) / f))
      rw [show newSizeList image (ShrinkFactor.scalar f) false
          = image.size.map (fun sz : ℤ => pyInt ((sz : ℚ) / f + 1/2)) from rfl]
      refine List.map_congr_left ?_
      intro sz hszmem
      exact pyInt_add_half_eq_round _ (div_nonneg (by exact_mod_cast hsz sz hszmem) hf.le)
    | perAxis fs =>
      show newSizeList image (ShrinkFactor.perAxis fs) false
        = (image.size.zip fs).map (fun p => round ((p.1 : ℚ) / p.2))
      rw [show newSizeList image (ShrinkFactor.perAxis fs) false
          = (image.size.zip fs).map (fun p => pyInt ((p.1 : ℚ) / p.2 + 1/2)) from rfl]
      refine List.map_congr_left ?_
      intro p hp
      obtain ⟨hp1, hp2⟩ := List.mem_zip hp
      exact pyInt_add_half_eq_round _
        (div_nonneg (by exact_mod_cast hsz p.1 hp1) (hf p.2 hp2).le)
  · exact newSpacingList_eq_zipWith _ _ _ hnspc

/-- Witness for `smooth_and_resample_grid_exact` at a concrete 2-axis
image of size `[8, 6]`, spacing `[2, 3]`, shrink factor 2. -/
theorem smooth_and_resample_grid_exact_witness :
    (Image.mk [4, 3] [14/3, 15/2] [1, 1] [1, 0, 0, 1] 8 []).size =
      (Image.mk [8, 6] [2, 3] [1, 1] [1, 0, 0, 1] 8 []).size.map
        (fun sz : ℤ => round ((sz : ℚ) / 2)) ∧
    (Image.mk [4, 3] [14/3, 15/2] [1, 1] [1, 0, 0, 1] 8 []).spacing =
      List.zipWith
        (fun (p : ℤ × ℚ) (n : ℤ) => (((p.1 : ℚ) - 1) * p.2) / ((n : ℚ) - 1))
        ((Image.mk [8, 6] [2, 3] [1, 1] [1, 0, 0, 1] 8 []).size.zip
          (Image.mk [8, 6] [2, 3] [1, 1] [1, 0, 0, 1] 8 []).spacing)
        (Image.mk [4, 3] [14/3, 15/2] [1, 1] [1, 0, 0, 1] 8 []).size ∧
    (Image.mk [4, 3] [14/3, 15/2] [1, 1] [1, 0, 0, 1] 8 []).origin =
      (Image.mk [8, 6] [2, 3] [1, 1] [1, 0, 0, 1] 8 []).origin ∧
    (Image.mk [4, 3] [14/3, 15/2] [1, 1] [1, 0, 0, 1] 8 []).direction =
      (Image.mk [8, 6] [2, 3] [1, 1] [1, 0, 0, 1] 8 []).direction := by
  have heval : smooth_and_resample (Image.mk [8, 6] [2, 3] [1, 1] [1, 0, 0, 1] 8 [])
      (.scalar 2) 0 false sitkLinear
      = some (Image.mk [4, 3] [14/3, 15/2] [1, 1] [1, 0, 0, 1] 8 []) := by
    have h1 : pyInt (9/2) = 4 := by norm_num [pyInt]
    have h2 : pyInt (7/2) = 3 := by norm_num [pyInt]
    norm_num [smooth_and_resample, newSizeList, newSpacingList, newSpacingAxis,
      resampleToGrid, sitkLinear, h1, h2]
  have := smooth_and_resample_grid_exact
    (Image.mk [8, 6] [2, 3] [1, 1] [1, 0, 0, 1] 8 []) (.scalar 2) 0 sitkLinear
    (Image.mk [4, 3] [14/3, 15/2] [1, 1] [1, 0, 0, 1] 8 [])
    (by decide) (by norm_num) heval
  exact this

/-- Claim C10 — `smooth_and_resample` returns an image precisely when every
axis's computed new size is at least 2: a rounded new size of 1 on any axis
makes the `new_spacing` computation divide by zero, and the call fails
instead of returning an image.  (Sizes below 1 cannot arise on genuine
images, captured by the hypothesis `hpos`.) -/
theorem smooth_and_resample_total_iff (image : Image) (sf : ShrinkFactor)
    (sigma : ℚ) (iso : Bool) (interp : ℕ)
    (hlen : image.spacing.length = image.size.length)
    (hpos : ∀ n ∈ newSizeList image sf iso, 1 ≤ n) :
    (smooth_and_resample image sf sigma iso interp).isSome ↔
      ∀ n ∈ newSizeList image sf iso, 2 ≤ n := by
  have hks : (smooth_and_resample image sf sigma iso interp).isSome
      = (newSpacingList (image.size.zip image.spacing)
          (newSizeList image sf iso)).isSome := by
    cases h : newSpacingList (image.size.zip image.spacing)
        (newSizeList image sf iso) with
    | none => simp [smooth_and_resample, bind, h]
    | some l => simp [smooth_and_resample, bind, h]
  rw [hks, newSpacingList_isSome_iff]
  have htake : (newSizeList image sf iso).take (image.size.zip image.spacing).length
      = newSizeList image sf iso :=
    List.take_of_length_le (newSizeList_length_le image sf iso hlen)
  rw [htake]
  constructor
  · intro h n hn
    have h1 := h n hn
    have h2 := hpos n hn
    omega
  · intro h n hn
    have := h n hn
    omega

/-- Witness for `smooth_and_resample_total_iff`: a single-axis image of
size 4 shrunk by factor 8 rounds to new size 1, and the call fails. -/
theorem smooth_and_resample_total_iff_witness :
    (∀ n ∈ newSizeList (Image.mk [4] [1] [0] [1] 8 []) (.scalar 8) false, 1 ≤ n) ∧
    ((smooth_and_resample (Image.mk [4] [1] [0] [1] 8 [])
        (.scalar 8) 0 false sitkLinear).isSome ↔
      ∀ n ∈ newSizeList (Image.mk [4] [1] [0] [1] 8 []) (.scalar 8) false, 2 ≤ n) := by
  have hns : newSizeList (Image.mk [4] [1] [0] [1] 8 []) (.scalar 8) false = [1] := by
    have h1 : pyInt 1 = 1 := by norm_num [pyInt]
    norm_num [newSizeList, h1]
  constructor
  · rw [hns]; simp
  · exact smooth_and_resample_total_iff (Image.mk [4] [1] [0] [1] 8 [])
      (.scalar 8) 0 false sitkLinear rfl (by rw [hns]; simp)

/-- Concrete image: 256³ voxels at 1.0 mm isotropic spacing. -/
def img256Unit : Image :=
  ⟨[256, 256, 256], [1, 1, 1], [0, 0, 0], [1, 0, 0, 0, 1, 0, 0, 0, 1], 8, []⟩

/-- Concrete image: 256³ voxels at 0.5 mm isotropic spacing. -/
def img256Half : Image :=
  ⟨[256, 256, 256], [1/2, 1/2, 1/2], [0, 0, 0], [1, 0, 0, 0, 1, 0, 0, 0, 1], 8, []⟩

/-- Claim C8 — `control_point_spacing_distance_to_number` returns, per
axis, `round (image_size · image_spacing / grid_spacing)`; in particular
256 voxels at 1.0 mm with 64 mm grid spacing gives 4 and 256 voxels at
0.5 mm gives 2 (per axis). -/
theorem control_point_spacing_round (image : Image) (grid_spacing : ℚ)
    (hgs : 0 < grid_spacing)
    (hsz : ∀ z ∈ image.size, 0 ≤ z)
    (hsp : ∀ s ∈ image.spacing, 0 ≤ s) :
    control_point_spacing_distance_to_number image grid_spacing
      = (image.size.zip image.spacing).map
          (fun p => round ((p.1 : ℚ) * p.2 / grid_spacing)) ∧
    control_point_spacing_distance_to_number img256Unit 64 = [4, 4, 4] ∧
    control_point_spacing_distance_to_number img256Half 64 = [2, 2, 2] := by
  refine ⟨?_, ?_, ?_⟩
  · unfold control_point_spacing_distance_to_number
    refine List.map_congr_left ?_
    intro p hp
    obtain ⟨hp1, hp2⟩ := List.mem_zip hp
    exact pyInt_add_half_eq_round _
      (div_nonneg (mul_nonneg (by exact_mod_cast hsz p.1 hp1) (hsp p.2 hp2)) hgs.le)
  · have h1 : pyInt (9/2) = 4 := by norm_num [pyInt]
    norm_num [control_point_spacing_distance_to_number, img256Unit, h1]
  · have h1 : pyInt (5/2) = 2 := by norm_num [pyInt]
    norm_num [control_point_spacing_distance_to_number, img256Half, h1]

/-- Witness for `control_point_spacing_round` at the 1.0 mm 256³ image and
64 mm grid spacing. -/
theorem control_point_spacing_round_witness :
    control_point_spacing_distance_to_number img256Unit 64
      = (img256Unit.size.zip img256Unit.spacing).map
          (fun p => round ((p.1 : ℚ) * p.2 / 64)) ∧
    control_point_spacing_distance_to_number img256Unit 64 = [4, 4, 4] ∧
    control_point_spacing_distance_to_number img256Half 64 = [2, 2, 2] :=
  control_point_spacing_round img256Unit 64 (by norm_num)
    (by decide) (by norm_num [img256Unit])

/-- A SimpleITK transform: a primitive point mapping (any linear, B-spline
or displacement-field transform) or an ordered composite chain.
`sitk.CompositeTransform` stores a queue of transforms and applies the
LAST transform in the queue to a point first (ITK composite-transform
semantics). -/
inductive Transform where
  | prim (f : List ℚ → List ℚ)
  | composite (ts : List Transform)

mutual

/-- `Transform.TransformPoint`: the action of a transform on a physical
point.  A composite applies its queue back-to-front. -/
def applyPoint : Transform → List ℚ → List ℚ
  | .prim f, x => f x
  | .composite ts, x => applyChain ts x

/-- Apply a composite queue back-to-front (last element first). -/
def applyChain : List Transform → List ℚ → List ℚ
  | [], x => x
  | t :: ts, x => applyPoint t (applyChain ts x)

end

/-- The action of resampling under a transform on the moving image viewed
as a function of physical position: the output at point `x` is the moving
image sampled at `applyPoint t x` (the fixed→moving point map), so the
transform acts on images by pullback. -/
def pullback (t : Transform) (img : List ℚ → ℚ) : List ℚ → ℚ :=
  fun x => img (applyPoint t x)

/-- `sitk.CompositeTransform([initial_transform, output_transform])`
(registration.py line 311): purely structural construction of the ordered
composite; nothing is resampled here. -/
def combined_transform (initial output : Transform) : Transform :=
  .composite [initial, output]

/-- Claim C6 — the composite returned by `initial_registration` is built
structurally (no resampling at composition time) with evaluation order
fixed at construction: as a fixed→moving point map it evaluates the
optimized transform first and the initializer second, so acting on the
moving image (by pullback, which is what resampling computes) the
initializer transform is applied first and the optimized transform
second — `optimized ∘ initial` in the moving-to-fixed direction. -/
theorem combined_transform_evaluation_order (initial output : Transform)
    (img : List ℚ → ℚ) (x : List ℚ) :
    combined_transform initial output = Transform.composite [initial, output] ∧
    applyPoint (combined_transform initial output) x
      = applyPoint initial (applyPoint output x) ∧
    pullback (combined_transform initial output) img
      = pullback output (pullback initial img) := by
  refine ⟨rfl, ?_, ?_⟩
  · simp [combined_transform, applyPoint, applyChain]
  · funext y
    simp [pullback, combined_transform, applyPoint, applyChain]

/-- SimpleITK `sitkFloat32` pixel-type id (the numeric value is immaterial
to the claims; it only marks the float-cast step). -/
def sitkFloat32 : ℤ := 8

/-- `sitk.Cast`: changes only the sample type of an image. -/
def castImage (img : Image) (pid : ℤ) : Image := { img with pixelID := pid }

/-- Everything a configured `sitk.ResampleImageFilter` execution depends
on: reference grid, transform, default (fill) value, interpolator and the
input image. -/
structure ResampleCall where
  reference : Image
  transform : Transform
  defaultValue : ℚ
  interpolator : ℕ
  input : Image

/-- `transform_propagation(fixed_image, moving_image, transform, structure,
default_value, interp)` (registration.py lines 325–367): raises
`ValueError` when `structure` is true and `interp` is not
nearest-neighbour, otherwise executes the resampler (modelled by the
primitive `exec`) and casts back to the moving image's pixel type. -/
def transform_propagation (exec : ResampleCall → Image)
    (fixed_image moving_image : Image) (transform : Transform)
    (isStructure : Bool) (default_value : ℚ) (interp : ℕ) :
    Except String Image :=
  if isStructure ∧ interp ≠ sitkNearestNeighbor then
    Except.error "Structure interpolation should be nearest neighbour."
  else
    Except.ok (castImage
      (exec { reference := fixed_image, transform := transform,
              defaultValue := default_value, interpolator := interp,
              input := moving_image })
      moving_image.pixelID)

/-- `apply_field(input_image, transform, structure, default_value, interp)`
(registration.py lines 643–684): same constraint check; resamples the
float-cast input onto its own grid and casts back to the input's pixel
type. -/
def apply_field (exec : ResampleCall → Image) (input_image : Image)
    (transform : Transform) (isStructure : Bool) (default_value : ℚ)
    (interp : ℕ) : Except String Image :=
  if isStructure ∧ interp ≠ sitkNearestNeighbor then
    Except.error "Structure interpolation should be nearest neighbour."
  else
    Except.ok (castImage
      (exec { reference := input_image, transform := transform,
              defaultValue := default_value, interpolator := interp,
              input := castImage input_image sitkFloat32 })
      input_image.pixelID)

/-- Claim C1 — for every call of `transform_propagation` or `apply_field`
with `structure = true`: a non-nearest-neighbour interpolator yields the
configuration error, and the error branch does not depend on the
resampling primitive `exec` at all (no resampling is executed); with
nearest-neighbour interpolation no error is raised and the resampling
proceeds. -/
theorem structure_requires_nearest_neighbour (exec exec' : ResampleCall → Image)
    (fixed moving input : Image) (t t' : Transform) (dv dv' : ℚ) (interp : ℕ) :
    transform_propagation exec fixed moving t true dv interp
      = (if interp = sitkNearestNeighbor
         then Except.ok (castImage
            (exec { reference := fixed, transform := t, defaultValue := dv,
                    interpolator := interp, input := moving })
            moving.pixelID)
         else Except.error "Structure interpolation should be nearest neighbour.") ∧
    apply_field exec' input t' true dv' interp
      = (if interp = sitkNearestNeighbor
         then Except.ok (castImage
            (exec' { reference := input, transform := t', defaultValue := dv',
                     interpolator := interp,
                     input := castImage input sitkFloat32 })
            input.pixelID)
         else Except.error "Structure interpolation should be nearest neighbour.") := by
  by_cases hnn : interp = sitkNearestNeighbor <;>
    simp [transform_propagation, apply_field, hnn]

/-- `sitk.BinaryThreshold(lower, upper)`: per-voxel indicator, 1 inside
the band and 0 outside (default inside/outside values). -/
def binaryThreshold (lower upper : ℚ) (data : List ℚ) : List ℚ :=
  data.map (fun v => if lower ≤ v ∧ v ≤ upper then 1 else 0)

/-- `Image.CopyInformation(ref)`: adopt the reference image's spacing,
origin and direction (sizes must already agree). -/
def copyInformation (img r : Image) : Image :=
  { img with
    origin := r.origin
    spacing := r.spacing
    direction := r.direction }

/-- The resample call assembled by
`fast_symmetric_forces_demons_registration` after the multiscale solve
(registration.py lines 618–628): reference is the fixed image, the
interpolator is the caller's `interp_order` as given, and the default
pixel value is 0 for structures and `default_value` otherwise. -/
def fsfd_resample_call (fixed_image moving_image : Image)
    (output_transform : Transform) (default_value : ℚ)
    (isStructure : Bool) (interp_order : ℕ) : ResampleCall :=
  { reference := fixed_image, transform := output_transform,
    defaultValue := if isStructure then 0 else default_value,
    interpolator := interp_order, input := moving_image }

/-- The final registered image produced by
`fast_symmetric_forces_demons_registration` (registration.py lines
618–637): execute the resampler; for structures, cast to float and
binary-threshold with band `[1e-5, 100]`; copy the fixed image's grid
information and cast back to the moving image's original pixel type. -/
def fsfd_apply_output_transform (exec : ResampleCall → Image)
    (fixed_image moving_image : Image) (output_transform : Transform)
    (default_value : ℚ) (isStructure : Bool) (interp_order : ℕ)
    (moving_image_type : ℤ) : Image :=
  let registered := exec (fsfd_resample_call fixed_image moving_image
    output_transform default_value isStructure interp_order)
  let registered :=
    if isStructure then
      let f32 := castImage registered sitkFloat32
      { f32 with data := binaryThreshold (1/100000) 100 f32.data }
    else registered
  castImage (copyInformation registered fixed_image) moving_image_type

/-- Counterexample to claim C2: with `structure = true` and the default
`interp_order = 2` (linear), the resample call issued by
`fast_symmetric_forces_demons_registration` uses the linear interpolator,
not nearest-neighbour — nearest-neighbour interpolation is NOT forced for
structure images. -/
theorem fsfd_structure_interp_not_forced :
    (fsfd_resample_call (Image.mk [2] [1] [0] [1] 8 [0, 0])
        (Image.mk [2] [1] [0] [1] 8 [0, 1]) (Transform.composite [])
        (-1000) true sitkLinear).interpolator = sitkLinear ∧
    sitkLinear ≠ sitkNearestNeighbor := by
  exact ⟨rfl, by decide⟩

/-- Claim C2 (amended) — in
`fast_symmetric_forces_demons_registration` with `structure = true`, the
moving image is resampled under the output displacement-field transform
using the caller-supplied `interp_order` (not forced to nearest-neighbour)
with default pixel value 0, and the resampled values are binary-thresholded
over `[1e-5, 100]` to remove interpolation leakage at label boundaries. -/
theorem fsfd_structure_resample_behaviour (exec : ResampleCall → Image)
    (fixed moving : Image) (t : Transform) (dv : ℚ) (k : ℕ) (mt : ℤ) :
    (fsfd_resample_call fixed moving t dv true k).interpolator = k ∧
    (fsfd_resample_call fixed moving t dv true k).defaultValue = 0 ∧
    (fsfd_apply_output_transform exec fixed moving t dv true k mt).data
      = binaryThreshold (1/100000) 100
          (exec (fsfd_resample_call fixed moving t dv true k)).data ∧
    (fsfd_apply_output_transform exec fixed moving t dv true k mt).pixelID = mt := by
  refine ⟨rfl, rfl, ?_, rfl⟩
  simp [fsfd_apply_output_transform, copyInformation, castImage]

deriving instance DecidableEq for Except

/-- Python `str.lower()` (ASCII, adequate for the option strings used). -/
def toLower (s : String) : String := ⟨s.data.map Char.toLower⟩

/-- The metric selected by the `metric ==` dispatch chain of
`initial_registration` (registration.py lines 232–242). -/
inductive MetricChoice where
  | correlation
  | meanSquares
  | mattesMI
  | jointHistMI
  | ants (radius : ℤ)
deriving DecidableEq, Repr

/-- The optimiser selected by the `optimiser.lower() ==` dispatch chain of
`initial_registration` (registration.py lines 277–301). -/
inductive OptimiserChoice where
  | lbfgsb
  | exhaustive
  | gradientDescentLineSearch
  | gradientDescent
deriving DecidableEq, Repr

/-- The linear transform family selected by the `reg_method.lower() ==`
dispatch chain of `initial_registration` (registration.py lines 259–275). -/
inductive RegMethodTransform where
  | translation
  | similarity
  | affine
  | rigid
  | scaleVersor
  | scaleSkewVersor
deriving DecidableEq, Repr

/-- Operation mode of `sitk.CenteredTransformInitializer`: `GEOMETRY`
aligns the geometric centres of the two image volumes, `MOMENTS` aligns
their intensity centres of mass. -/
inductive CenteringMode where
  | geometry
  | moments
deriving DecidableEq, Repr

/-- The rigid initializer transform produced by
`sitk.CenteredTransformInitializer`: its mode and the resulting
centre-aligning translation (modelled along the first image axis, which
suffices to distinguish the two modes). -/
structure CenteredInit where
  mode : CenteringMode
  translation : ℚ
deriving DecidableEq, Repr

/-- Physical position of voxel `i` along the first axis. -/
def physPos (img : Image) (i : ℕ) : ℚ :=
  img.origin.headD 0 + img.spacing.headD 0 * i

/-- Geometric centre of the image volume along the first axis. -/
def geometricCenter (img : Image) : ℚ :=
  img.origin.headD 0
    + img.spacing.headD 0 * (((img.size.headD 1 : ℤ) : ℚ) - 1) / 2

/-- Σ position·value over the samples, starting at voxel index `i`. -/
def weightedPosSum (img : Image) : ℕ → List ℚ → ℚ
  | _, [] => 0
  | i, v :: vs => physPos img i * v + weightedPosSum img (i + 1) vs

/-- Intensity centre of mass along the first axis (first image moment). -/
def centerOfMass (img : Image) : ℚ :=
  weightedPosSum img 0 img.data / img.data.sum

/-- `sitk.CenteredTransformInitializer(fixed, moving, transform, mode)`
with a rigid transform: in `MOMENTS` mode (`True`) the translation aligns
the centres of mass, in `GEOMETRY` mode (`False`) it aligns the geometric
centres of the two volumes. -/
def centeredTransformInitializer (fixed moving : Image) (moments : Bool) :
    CenteredInit :=
  if moments then
    { mode := .moments, translation := centerOfMass moving - centerOfMass fixed }
  else
    { mode := .geometry,
      translation := geometricCenter moving - geometricCenter fixed }

/-- The `metric ==` dispatch chain of `initial_registration`
(registration.py lines 232–242): NO `else` branch exists — an
unrecognized metric name falls through silently (`# to do: add the rest`)
and the metric setting is simply never made. -/
def metricDispatch (metric : String) (ants_radius : ℤ) : Option MetricChoice :=
  if metric = "correlation" then some .correlation
  else if metric = "mean_squares" then some .meanSquares
  else if metric = "mattes_mi" then some .mattesMI
  else if metric = "joint_hist_mi" then some .jointHistMI
  else if metric = "ants" then some (.ants ants_radius)
  else none

/-- The recognized `reg_method` names (lower-cased). -/
def validRegMethods : List String :=
  ["translation", "similarity", "affine", "rigid", "scaleversor",
   "scaleskewversor"]

/-- The error message raised for an unrecognized `reg_method`
(registration.py lines 272–275). -/
def regMethodErrorMsg : String :=
  "You have selected a registration method that does not exist.\n Please select from Translation, Similarity, Affine, Rigid, ScaleVersor, ScaleSkewVersor"

/-- The `reg_method.lower() ==` dispatch chain of `initial_registration`
(registration.py lines 259–275): the only chain with an `else` branch
raising `ValueError`. -/
def regMethodDispatch (reg_method : String) : Except String RegMethodTransform :=
  if toLower reg_method = "translation" then .ok .translation
  else if toLower reg_method = "similarity" then .ok .similarity
  else if toLower reg_method = "affine" then .ok .affine
  else if toLower reg_method = "rigid" then .ok .rigid
  else if toLower reg_method = "scaleversor" then .ok .scaleVersor
  else if toLower reg_method = "scaleskewversor" then .ok .scaleSkewVersor
  else .error regMethodErrorMsg

/-- The `optimiser.lower() ==` dispatch chain of `initial_registration`
(registration.py lines 277–301): NO `else` branch — an unrecognized
optimiser name falls through silently and no optimiser is configured. -/
def optimiserDispatch (optimiser : String) : Option OptimiserChoice :=
  if toLower optimiser = "lbfgsb" then some .lbfgsb
  else if toLower optimiser = "exhaustive" then some .exhaustive
  else if toLower optimiser = "gradient_descent_line_search" then
    some .gradientDescentLineSearch
  else if toLower optimiser = "gradient_descent" then some .gradientDescent
  else none

/-- The registration configuration assembled by `initial_registration`
before `registration.Execute` runs. -/
structure RegConfig where
  metricSet : Option MetricChoice
  movingInitial : CenteredInit
  transformFamily : RegMethodTransform
  optimiserSet : Option OptimiserChoice
deriving DecidableEq, Repr

/-- The configuration `initial_registration` hands to
`registration.Execute` once the `reg_method` dispatch has selected the
family `fam`: metric and optimiser from their (silently failing) dispatch
chains, and the GEOMETRY-mode rigid initializer as the moving-initial
transform. -/
def assembledConfig (fixed moving : Image) (metric optimiser : String)
    (ants_radius : ℤ) (fam : RegMethodTransform) : RegConfig :=
  { metricSet := metricDispatch metric ants_radius
    movingInitial := centeredTransformInitializer fixed moving false
    transformFamily := fam
    optimiserSet := optimiserDispatch optimiser }

/-- The configuration phase of `initial_registration` (registration.py
lines 213–309, everything before `registration.Execute`): build the
moving-initial transform with `CenteredTransformInitializer(fixed, moving,
Euler3DTransform(), False)` (held fixed via `SetMovingInitialTransform`),
run the metric dispatch (silent on unknown names), the `reg_method`
dispatch (raises on unknown names), and the optimiser dispatch (silent on
unknown names).  Returns the assembled configuration that `Execute`
receives, or the configuration error. -/
def initial_registration_setup (fixed moving : Image)
    (reg_method metric optimiser : String) (ants_radius : ℤ) :
    Except String RegConfig :=
  match regMethodDispatch reg_method with
  | .error e => .error e
  | .ok fam => .ok (assembledConfig fixed moving metric optimiser ants_radius fam)

/-- Unfolding equation for the configuration phase. -/
lemma initial_registration_setup_eq (fixed moving : Image)
    (rm me op : String) (r : ℤ) :
    initial_registration_setup fixed moving rm me op r
      = match regMethodDispatch rm with
        | .error e => .error e
        | .ok fam => .ok (assembledConfig fixed moving me op r fam) := rfl

/-- An unrecognized `reg_method` yields exactly the descriptive error. -/
lemma regMethodDispatch_error (s : String) (h : toLower s ∉ validRegMethods) :
    regMethodDispatch s = Except.error regMethodErrorMsg := by
  unfold regMethodDispatch
  split_ifs with h1 h2 h3 h4 h5 h6
  · exact absurd (by simp [validRegMethods, h1]) h
  · exact absurd (by simp [validRegMethods, h2]) h
  · exact absurd (by simp [validRegMethods, h3]) h
  · exact absurd (by simp [validRegMethods, h4]) h
  · exact absurd (by simp [validRegMethods, h5]) h
  · exact absurd (by simp [validRegMethods, h6]) h
  · rfl

/-- A recognized `reg_method` yields a transform family. -/
lemma regMethodDispatch_ok (s : String) (h : toLower s ∈ validRegMethods) :
    ∃ f, regMethodDispatch s = Except.ok f := by
  unfold regMethodDispatch
  split_ifs with h1 h2 h3 h4 h5 h6
  · exact ⟨_, rfl⟩
  · exact ⟨_, rfl⟩
  · exact ⟨_, rfl⟩
  · exact ⟨_, rfl⟩
  · exact ⟨_, rfl⟩
  · exact ⟨_, rfl⟩
  · simp only [validRegMethods, List.mem_cons, List.mem_singleton] at h
    rcases h with h | h | h | h | h | h <;> simp_all

/-- Concrete fixed image for the initializer examples: 3 voxels with all
intensity mass at the left end. -/
def comFixed : Image := ⟨[3], [1], [0], [1], 8, [1, 0, 0]⟩

/-- Concrete moving image for the initializer examples: 3 voxels with all
intensity mass at the right end. -/
def comMoving : Image := ⟨[3], [1], [0], [1], 8, [0, 0, 1]⟩

/-- Counterexample to claim C3: an unrecognized metric name (and an
unrecognized optimiser name) does NOT abort `initial_registration`
— the dispatch chains fall through silently, both settings are simply
skipped, and the configuration phase reaches `registration.Execute`. -/
theorem initial_registration_unknown_metric_accepted :
    initial_registration_setup comFixed comMoving "similarity"
        "not_a_metric" "not_an_optimiser" 3
      = Except.ok
          { metricSet := none
            movingInitial := { mode := .geometry, translation := 0 }
            transformFamily := .similarity
            optimiserSet := none } := by
  have hd : regMethodDispatch "similarity"
      = Except.ok RegMethodTransform.similarity := by decide
  have hm : metricDispatch "not_a_metric" 3 = none := by decide
  have ho : optimiserDispatch "not_an_optimiser" = none := by decide
  have hc : centeredTransformInitializer comFixed comMoving false
      = { mode := .geometry, translation := 0 } := by
    norm_num [centeredTransformInitializer, geometricCenter, comFixed, comMoving]
  rw [initial_registration_setup_eq, hd]
  unfold assembledConfig
  rw [hm, ho, hc]

/-- Claim C3 (amended) — only an unrecognized transform family
(`reg_method`) aborts the configuration phase of `initial_registration`
before `registration.Execute`, with the descriptive error naming the valid
alternatives; unrecognized metric or optimiser names are silently ignored
(their dispatch chains have no `else` branch) and optimization proceeds. -/
theorem initial_registration_config_validation (fixed moving : Image)
    (reg_method metric optimiser : String) (r : ℤ) :
    ((initial_registration_setup fixed moving reg_method metric optimiser r).isOk
        = true ↔ toLower reg_method ∈ validRegMethods) ∧
    (toLower reg_method ∉ validRegMethods →
      initial_registration_setup fixed moving reg_method metric optimiser r
        = Except.error regMethodErrorMsg) := by
  refine ⟨⟨?_, ?_⟩, ?_⟩
  · intro hok
    by_contra hmem
    rw [initial_registration_setup_eq,
      regMethodDispatch_error reg_method hmem] at hok
    simp [Except.isOk, Except.toBool] at hok
  · intro hmem
    obtain ⟨f, hf⟩ := regMethodDispatch_ok reg_method hmem
    rw [initial_registration_setup_eq, hf]
    rfl
  · intro hmem
    rw [initial_registration_setup_eq, regMethodDispatch_error reg_method hmem]

/-- Witness for `initial_registration_config_validation` at the
unrecognized method name `"bogus"`. -/
theorem initial_registration_config_validation_witness :
    ((initial_registration_setup comFixed comMoving "bogus" "mean_squares"
        "gradient_descent" 3).isOk = true ↔ toLower "bogus" ∈ validRegMethods) ∧
    initial_registration_setup comFixed comMoving "bogus" "mean_squares"
        "gradient_descent" 3 = Except.error regMethodErrorMsg := by
  have h := initial_registration_config_validation comFixed comMoving
    "bogus" "mean_squares" "gradient_descent" 3
  exact ⟨h.1, h.2 (by decide)⟩

/-- Counterexample to claim C5: `initial_registration` seeds the
optimization with `CenteredTransformInitializer(..., Euler3DTransform(),
False)` — GEOMETRY mode, which aligns geometric centres of the volumes —
not a moments (centre-of-mass) alignment.  On images whose mass sits at
opposite ends, the seeded transform has translation 0 while the
centre-of-mass alignment would translate by 2. -/
theorem initial_registration_seed_not_moments :
    initial_registration_setup comFixed comMoving "rigid" "mean_squares"
        "gradient_descent" 3
      = Except.ok
          { metricSet := some .meanSquares
            movingInitial := { mode := .geometry, translation := 0 }
            transformFamily := .rigid
            optimiserSet := some .gradientDescent } ∧
    centeredTransformInitializer comFixed comMoving true
      = { mode := .moments, translation := 2 } ∧
    ({ mode := .geometry, translation := 0 } : CenteredInit)
      ≠ { mode := .moments, translation := 2 } := by
  refine ⟨?_, ?_, by simp⟩
  · have hd : regMethodDispatch "rigid" = Except.ok RegMethodTransform.rigid := by
      decide
    have hm : metricDispatch "mean_squares" 3 = some .meanSquares := by decide
    have ho : optimiserDispatch "gradient_descent" = some .gradientDescent := by
      decide
    have hc : centeredTransformInitializer comFixed comMoving false
        = { mode := .geometry, translation := 0 } := by
      norm_num [centeredTransformInitializer, geometricCenter, comFixed, comMoving]
    rw [initial_registration_setup_eq, hd]
    unfold assembledConfig
    rw [hm, ho, hc]
  · norm_num [centeredTransformInitializer, centerOfMass, weightedPosSum,
      physPos, comFixed, comMoving]

/-- Claim C5 (amended) — whenever the configuration phase of
`initial_registration` succeeds, the transform seeded as the
moving-initial transform (held fixed during optimization via
`SetMovingInitialTransform`) is the rigid `CenteredTransformInitializer`
in GEOMETRY mode: it aligns the images' geometric centres, translating by
the difference of geometric centres, not by the difference of centres of
mass. -/
theorem initial_registration_seed_geometry (fixed moving : Image)
    (rm me op : String) (r : ℤ) (cfg : RegConfig)
    (h : initial_registration_setup fixed moving rm me op r = Except.ok cfg) :
    cfg.movingInitial = centeredTransformInitializer fixed moving false ∧
    cfg.movingInitial.mode = CenteringMode.geometry ∧
    cfg.movingInitial.translation
      = geometricCenter moving - geometricCenter fixed := by
  rw [initial_registration_setup_eq] at h
  cases hd : regMethodDispatch rm with
  | error e => rw [hd] at h; exact absurd h (by simp)
  | ok fam =>
    rw [hd] at h
    simp only [Except.ok.injEq] at h
    subst h
    exact ⟨rfl, rfl, rfl⟩

/-- Witness for `initial_registration_seed_geometry` at a concrete
successful configuration. -/
theorem initial_registration_seed_geometry_witness :
    (centeredTransformInitializer comFixed comMoving false).mode
        = CenteringMode.geometry ∧
    (centeredTransformInitializer comFixed comMoving false).translation
        = geometricCenter comMoving - geometricCenter comFixed := by
  have hd : regMethodDispatch "translation"
      = Except.ok RegMethodTransform.translation := by decide
  have hok : initial_registration_setup comFixed comMoving "translation"
      "mean_squares" "gradient_descent" 3
      = Except.ok (assembledConfig comFixed comMoving "mean_squares"
          "gradient_descent" 3 RegMethodTransform.translation) := by
    rw [initial_registration_setup_eq, hd]
  have h := initial_registration_seed_geometry comFixed comMoving
    "translation" "mean_squares" "gradient_descent" 3 _ hok
  exact ⟨h.2.1, h.2.2⟩

/-- One level of the pyramid loop of `multiscale_demons`: successive
`smooth_and_resample` calls over a schedule, collecting the levels in
order (the Python loop appends to a list and a failure aborts). -/
def buildLevels (img : Image) (iso : Bool) :
    List (ShrinkFactor × ℚ) → Option (List Image)
  | [] => some []
  | (f, s) :: rest => do
      let lvl ← smooth_and_resample img f s iso sitkLinear
      let tail ← buildLevels img iso rest
      pure (lvl :: tail)

/-- The image pyramid of `multiscale_demons` (registration.py lines
460–480): levels are built over `reversed(list(zip(shrink_factors,
smoothing_sigmas)))`, so the entry for `shrink_factors[0]` is appended
LAST (`fixed_images[-1]`). -/
def buildPyramid (img : Image) (schedule : List (ShrinkFactor × ℚ))
    (iso : Bool) : Option (List Image) :=
  buildLevels img iso schedule.reverse

/-- How `multiscale_demons` initializes the displacement field
(registration.py lines 485–511): a supplied field is resampled onto a
grid; otherwise a supplied transform is converted to a dense field on a
grid; otherwise a zero field carrying a grid's information is created. -/
inductive InitialField where
  | resampledField (field : Image) (grid : Image)
  | fromTransform (t : Transform) (grid : Image)
  | zeroField (grid : Image)

/-- The displacement-field initialization of `multiscale_demons`
(registration.py lines 460–511): build both pyramids, take
`fixed_images[-1]` (the level built from `shrink_factors[0]` — the
coarsest level under the code's coarse-to-fine schedule convention), then:
if `initial_displacement_field` is supplied it is resampled onto that
grid and `initial_transform` is IGNORED; otherwise a supplied
`initial_transform` is converted to a dense field on that grid; otherwise
a zero field with that grid's information is created (2-D and 3-D images
only). -/
def multiscale_demons_initial_field (fixed_image moving_image : Image)
    (initial_transform : Option Transform)
    (initial_displacement_field : Option Image)
    (shrink_factors : List ShrinkFactor) (smoothing_sigmas : List ℚ)
    (iso : Bool) : Option InitialField := do
  let fixedImages ← buildPyramid fixed_image
    (shrink_factors.zip smoothing_sigmas) iso
  let _movingImages ← buildPyramid moving_image
    (shrink_factors.zip smoothing_sigmas) iso
  let coarsest ← fixedImages.getLast?
  match initial_displacement_field with
  | some f => pure (InitialField.resampledField f coarsest)
  | none =>
    match initial_transform with
    | some t => pure (InitialField.fromTransform t coarsest)
    | none =>
        if moving_image.size.length = 2 ∨ moving_image.size.length = 3 then
          pure (InitialField.zeroField coarsest)
        else none

/-- The last level of a successfully built pyramid segment is the level of
the final schedule entry. -/
lemma buildLevels_concat_last (img : Image) (iso : Bool) :
    ∀ (xs : List (ShrinkFactor × ℚ)) (a : ShrinkFactor × ℚ) (ls : List Image),
    buildLevels img iso (xs ++ [a]) = some ls →
    ∃ lvl, smooth_and_resample img a.1 a.2 iso sitkLinear = some lvl
      ∧ ls.getLast? = some lvl := by
  intro xs
  induction xs with
  | nil =>
    intro a ls h
    obtain ⟨af, as⟩ := a
    simp only [List.nil_append, buildLevels, bind, Option.pure_def,
      Option.bind_eq_some, Option.some_inj] at h
    obtain ⟨lvl, hl, tail, htail, hls⟩ := h
    subst hls
    subst htail
    exact ⟨lvl, hl, rfl⟩
  | cons x xs ih =>
    intro a ls h
    obtain ⟨xf, xs2⟩ := x
    simp only [List.cons_append, buildLevels, bind, Option.pure_def,
      Option.bind_eq_some, Option.some_inj] at h
    obtain ⟨lvl0, h0, tail, htail, hls⟩ := h
    obtain ⟨lvl, hl, hlast⟩ := ih a tail htail
    subst hls
    refine ⟨lvl, hl, ?_⟩
    cases tail with
    | nil => simp at hlast
    | cons u us => simpa [List.getLast?_cons_cons] using hlast

/-- Claim C9 — in `multiscale_demons` a supplied
`initial_displacement_field` takes precedence over a supplied
`initial_transform`: with both given, the field is resampled onto the
grid of the level built from `shrink_factors[0]` (the coarsest pyramid
level under the coarse-to-fine schedule convention) and the transform is
ignored; with only the transform given it is converted to a dense field
on that grid; with neither, a zero field carrying that grid's information
is used. -/
theorem multiscale_demons_field_precedence
    (fixed moving : Image) (t : Transform) (fld : Image)
    (sf0 : ShrinkFactor) (sfs : List ShrinkFactor) (sg0 : ℚ) (sgs : List ℚ)
    (iso : Bool) (coarse : Image)
    (hdim : moving.size.length = 2 ∨ moving.size.length = 3)
    (hcoarse : smooth_and_resample fixed sf0 sg0 iso sitkLinear = some coarse)
    (hF : (buildPyramid fixed ((sf0 :: sfs).zip (sg0 :: sgs)) iso).isSome = true)
    (hM : (buildPyramid moving ((sf0 :: sfs).zip (sg0 :: sgs)) iso).isSome = true) :
    multiscale_demons_initial_field fixed moving (some t) (some fld)
        (sf0 :: sfs) (sg0 :: sgs) iso
      = some (InitialField.resampledField fld coarse) ∧
    multiscale_demons_initial_field fixed moving (some t) none
        (sf0 :: sfs) (sg0 :: sgs) iso
      = some (InitialField.fromTransform t coarse) ∧
    multiscale_demons_initial_field fixed moving none none
        (sf0 :: sfs) (sg0 :: sgs) iso
      = some (InitialField.zeroField coarse) := by
  rw [Option.isSome_iff_exists] at hF hM
  obtain ⟨ls, hls⟩ := hF
  obtain ⟨ms, hms⟩ := hM
  have hlast : ls.getLast? = some coarse := by
    have h2 : buildLevels fixed iso
        (((sfs.zip sgs)).reverse ++ [(sf0, sg0)]) = some ls := by
      have : ((sf0 :: sfs).zip (sg0 :: sgs)).reverse
          = ((sfs.zip sgs)).reverse ++ [(sf0, sg0)] := by
        rw [List.zip_cons_cons, List.reverse_cons]
      rw [buildPyramid, this] at hls
      exact hls
    obtain ⟨lvl, hl, hlast⟩ := buildLevels_concat_last fixed iso
      ((sfs.zip sgs)).reverse (sf0, sg0) ls h2
    rw [hcoarse] at hl
    simp only [Option.some_inj] at hl
    rw [hlast, hl]
  have hls2 : buildPyramid fixed ((sf0, sg0) :: sfs.zip sgs) iso = some ls := by
    rw [← List.zip_cons_cons]; exact hls
  have hms2 : buildPyramid moving ((sf0, sg0) :: sfs.zip sgs) iso = some ms := by
    rw [← List.zip_cons_cons]; exact hms
  refine ⟨?_, ?_, ?_⟩ <;>
    simp [multiscale_demons_initial_field, hls, hms, hls2, hms2, hlast, bind, hdim]

/-- Witness for `multiscale_demons_field_precedence` on a concrete 32²
2-axis image with shrink schedule `[8, 4, 1]` and no smoothing. -/
theorem multiscale_demons_field_precedence_witness :
    multiscale_demons_initial_field (Image.mk [32, 32] [1, 1] [0, 0] [1, 0, 0, 1] 8 [])
        (Image.mk [32, 32] [1, 1] [0, 0] [1, 0, 0, 1] 8 [])
        (some (Transform.composite []))
        (some (Image.mk [2, 2] [1, 1] [0, 0] [1, 0, 0, 1] 8 []))
        [.scalar 8, .scalar 4, .scalar 1] [0, 0, 0] false
      = some (InitialField.resampledField
          (Image.mk [2, 2] [1, 1] [0, 0] [1, 0, 0, 1] 8 [])
          (Image.mk [4, 4] [31/3, 31/3] [0, 0] [1, 0, 0, 1] 8 [])) ∧
    multiscale_demons_initial_field (Image.mk [32, 32] [1, 1] [0, 0] [1, 0, 0, 1] 8 [])
        (Image.mk [32, 32] [1, 1] [0, 0] [1, 0, 0, 1] 8 [])
        (some (Transform.composite [])) none
        [.scalar 8, .scalar 4, .scalar 1] [0, 0, 0] false
      = some (InitialField.fromTransform (Transform.composite [])
          (Image.mk [4, 4] [31/3, 31/3] [0, 0] [1, 0, 0, 1] 8 [])) ∧
    multiscale_demons_initial_field (Image.mk [32, 32] [1, 1] [0, 0] [1, 0, 0, 1] 8 [])
        (Image.mk [32, 32] [1, 1] [0, 0] [1, 0, 0, 1] 8 []) none none
        [.scalar 8, .scalar 4, .scalar 1] [0, 0, 0] false
      = some (InitialField.zeroField
          (Image.mk [4, 4] [31/3, 31/3] [0, 0] [1, 0, 0, 1] 8 [])) := by
  have h8 : smooth_and_resample (Image.mk [32, 32] [1, 1] [0, 0] [1, 0, 0, 1] 8 [])
      (.scalar 8) 0 false sitkLinear
      = some (Image.mk [4, 4] [31/3, 31/3] [0, 0] [1, 0, 0, 1] 8 []) := by
    have h1 : pyInt (9/2) = 4 := by norm_num [pyInt]
    norm_num [smooth_and_resample, newSizeList, newSpacingList, newSpacingAxis,
      resampleToGrid, h1]
  have h4 : smooth_and_resample (Image.mk [32, 32] [1, 1] [0, 0] [1, 0, 0, 1] 8 [])
      (.scalar 4) 0 false sitkLinear
      = some (Image.mk [8, 8] [31/7, 31/7] [0, 0] [1, 0, 0, 1] 8 []) := by
    have h1 : pyInt (17/2) = 8 := by norm_num [pyInt]
    norm_num [smooth_and_resample, newSizeList, newSpacingList, newSpacingAxis,
      resampleToGrid, h1]
  have h1l : smooth_and_resample (Image.mk [32, 32] [1, 1] [0, 0] [1, 0, 0, 1] 8 [])
      (.scalar 1) 0 false sitkLinear
      = some (Image.mk [32, 32] [1, 1] [0, 0] [1, 0, 0, 1] 8 []) := by
    have h1 : pyInt (65/2) = 32 := by norm_num [pyInt]
    norm_num [smooth_and_resample, newSizeList, newSpacingList, newSpacingAxis,
      resampleToGrid, h1]
  have hP : buildPyramid (Image.mk [32, 32] [1, 1] [0, 0] [1, 0, 0, 1] 8 [])
      ([ShrinkFactor.scalar 8, .scalar 4, .scalar 1].zip [0, 0, 0]) false
      = some [Image.mk [32, 32] [1, 1] [0, 0] [1, 0, 0, 1] 8 [],
          Image.mk [8, 8] [31/7, 31/7] [0, 0] [1, 0, 0, 1] 8 [],
          Image.mk [4, 4] [31/3, 31/3] [0, 0] [1, 0, 0, 1] 8 []] := by
    simp [buildPyramid, buildLevels, h8, h4, h1l, bind]
  exact multiscale_demons_field_precedence
    (Image.mk [32, 32] [1, 1] [0, 0] [1, 0, 0, 1] 8 [])
    (Image.mk [32, 32] [1, 1] [0, 0] [1, 0, 0, 1] 8 []) (Transform.composite [])
    (Image.mk [2, 2] [1, 1] [0, 0] [1, 0, 0, 1] 8 []) (.scalar 8)
    [.scalar 4, .scalar 1] 0 [0, 0] false
    (Image.mk [4, 4] [31/3, 31/3] [0, 0] [1, 0, 0, 1] 8 [])
    (by simp) h8 (by rw [hP]; rfl) (by rw [hP]; rfl)

/-- Physical distances from voxel `i` to every voxel of the class selected
by `fg` (`true`: foreground/nonzero, `false`: background/zero). -/
def candidateDists (mask : List ℚ) (spacing : ℚ) (i : ℕ) (fg : Bool) :
    List ℚ :=
  (List.range mask.length).filterMap (fun j =>
    if (decide (mask.getD j 0 ≠ 0)) = fg then
      some (|(i : ℚ) - (j : ℚ)| * spacing)
    else none)

/-- Minimum of a list with a default for the empty list. -/
def listMinD (l : List ℚ) (d : ℚ) : ℚ :=
  match l with
  | [] => d
  | x :: xs => xs.foldl min x

/-- 1-D model of the library primitive
`sitk.SignedMaurerDistanceMap(mask, insideIsPositive=True,
useImageSpacing=True)`: at each voxel, plus or minus the physical distance
to the nearest voxel of the complementary class, positive inside the mask;
where no complementary voxel exists, the image diameter stands in for the
library's unbounded distance.  (The exact Maurer boundary offset is
immaterial here — only sign and scale enter the claims.) -/
def signedMaurerDistanceMap (mask : List ℚ) (spacing : ℚ) : List ℚ :=
  (List.range mask.length).map (fun i =>
    if mask.getD i 0 ≠ 0 then
      listMinD (candidateDists mask spacing i false) ((mask.length : ℚ) * spacing)
    else
      -(listMinD (candidateDists mask spacing i true) ((mask.length : ℚ) * spacing)))

/-- numpy `array.max()` over the image samples (the source computes
`sitk.GetArrayFromImage(raw_map).max()`; images are nonempty in use). -/
def npMax (l : List ℚ) : ℚ :=
  match l with
  | [] => 0
  | x :: xs => xs.foldl max x

/-- `convert_mask_to_distance_map(mask, squared_distance, normalise)`
(registration.py lines 20–42): the signed Maurer distance map of the mask
(sign-preserving squaring when requested), divided — when `normalise` is
set — by the MAXIMUM value of the raw map. -/
def convert_mask_to_distance_map (mask : Image)
    (squared_distance normalise : Bool) : Image :=
  let raw := signedMaurerDistanceMap mask.data (mask.spacing.headD 1)
  let raw := if squared_distance then raw.map (fun d => d * |d|) else raw
  if normalise then
    { mask with data := raw.map (fun v => v / npMax raw), pixelID := sitkFloat32 }
  else
    { mask with data := raw, pixelID := sitkFloat32 }

/-- Everything in a list is bounded by a `foldl max`. -/
lemma foldl_max_bounds (xs : List ℚ) :
    ∀ b, b ≤ xs.foldl max b ∧ ∀ y ∈ xs, y ≤ xs.foldl max b := by
  induction xs with
  | nil => intro b; simp
  | cons x xs ih =>
    intro b
    constructor
    · exact le_trans (le_max_left b x) (ih (max b x)).1
    · intro y hy
      rcases List.mem_cons.mp hy with hy | hy
      · subst hy
        exact le_trans (le_max_right b y) (ih (max b y)).1
      · exact (ih (max b x)).2 y hy

/-- Every member of a list is at most its `npMax`. -/
lemma le_npMax_of_mem {l : List ℚ} {x : ℚ} (h : x ∈ l) : x ≤ npMax l := by
  cases l with
  | nil => cases h
  | cons y ys =>
    rcases List.mem_cons.mp h with h | h
    · subst h; exact (foldl_max_bounds ys x).1
    · exact (foldl_max_bounds ys y).2 x h

/-- Division by a positive constant commutes with `foldl max`. -/
lemma foldl_max_div (m : ℚ) (hm : 0 < m) (xs : List ℚ) :
    ∀ b, (xs.map (fun x => x / m)).foldl max (b / m) = (xs.foldl max b) / m := by
  induction xs with
  | nil => intro b; simp
  | cons x xs ih =>
    intro b
    simp only [List.map_cons, List.foldl_cons]
    rw [max_div_div_right hm.le b x, ih (max b x)]

/-- Division by a positive constant commutes with `npMax` on nonempty
lists. -/
lemma npMax_map_div (l : List ℚ) (m : ℚ) (hm : 0 < m) (hl : l ≠ []) :
    npMax (l.map (fun x => x / m)) = npMax l / m := by
  cases l with
  | nil => exact absurd rfl hl
  | cons x xs => simp only [List.map_cons, npMax]; exact foldl_max_div m hm xs x

/-- A `foldl min` of positives from a positive seed is positive. -/
lemma foldl_min_pos (xs : List ℚ) :
    ∀ b, 0 < b → (∀ y ∈ xs, 0 < y) → 0 < xs.foldl min b := by
  induction xs with
  | nil => intro b hb _; simpa using hb
  | cons x xs ih =>
    intro b hb hy
    simp only [List.foldl_cons]
    exact ih (min b x) (lt_min hb (hy x (List.mem_cons_self x xs)))
      (fun y h => hy y (List.mem_cons_of_mem x h))

/-- `listMinD` of positives with a positive default is positive. -/
lemma listMinD_pos {l : List ℚ} {d : ℚ} (hl : ∀ y ∈ l, 0 < y) (hd : 0 < d) :
    0 < listMinD l d := by
  cases l with
  | nil => exact hd
  | cons x xs =>
    exact foldl_min_pos xs x (hl x (List.mem_cons_self x xs))
      (fun y h => hl y (List.mem_cons_of_mem x h))

/-- Counterexample to claim C7: for the binary mask `[0, 0, 0, 1]` (unit
spacing), the normalised distance map divides by the maximum value 1, so
the returned data is `[-3, -2, -1, 1]` unchanged and its maximum ABSOLUTE
value is 3, not 1.  (Also, no check that the mask is binary exists in the
code.) -/
theorem convert_mask_to_distance_map_maxabs_not_one :
    npMax (((convert_mask_to_distance_map
        (Image.mk [4] [1] [0] [1] 1 [0, 0, 0, 1]) false true).data).map
          (fun v => |v|)) = 3 ∧ (3 : ℚ) ≠ 1 := by
  have hraw : signedMaurerDistanceMap [0, 0, 0, 1] 1 = [-3, -2, -1, 1] := by
    norm_num [signedMaurerDistanceMap, candidateDists, listMinD, List.range_succ,
      List.filterMap_cons, List.getD, List.foldl]
  have hdata : (convert_mask_to_distance_map
      (Image.mk [4] [1] [0] [1] 1 [0, 0, 0, 1]) false true).data
      = [-3, -2, -1, 1] := by
    have heq : (convert_mask_to_distance_map
        (Image.mk [4] [1] [0] [1] 1 [0, 0, 0, 1]) false true).data
        = (signedMaurerDistanceMap [0, 0, 0, 1] 1).map
            (fun v => v / npMax (signedMaurerDistanceMap [0, 0, 0, 1] 1)) := rfl
    rw [heq, hraw]
    norm_num [npMax, List.foldl]
  rw [hdata]
  norm_num [npMax, List.foldl]

/-- Claim C7 (amended) — `convert_mask_to_distance_map` with
`normalise=true` returns the signed distance transform (inside positive)
divided by its MAXIMUM value: for every mask with positive spacing
containing at least one foreground and one background voxel, the maximum
value of the returned image is exactly 1, but values below −1 survive, so
the maximum absolute value can exceed 1; no binary-input check is
performed. -/
theorem convert_mask_to_distance_map_normalised_max (mask : Image)
    (hsp : 0 < mask.spacing.headD 1)
    (hfg : ∃ i, i < mask.data.length ∧ mask.data.getD i 0 ≠ 0)
    (hbg : ∃ j, j < mask.data.length ∧ mask.data.getD j 0 = 0) :
    npMax (convert_mask_to_distance_map mask false true).data = 1 := by
  obtain ⟨i, hi, hfgv⟩ := hfg
  have heq : (convert_mask_to_distance_map mask false true).data
      = (signedMaurerDistanceMap mask.data (mask.spacing.headD 1)).map
          (fun v => v / npMax (signedMaurerDistanceMap mask.data
            (mask.spacing.headD 1))) := rfl
  have hvalmem : (if mask.data.getD i 0 ≠ 0 then
        listMinD (candidateDists mask.data (mask.spacing.headD 1) i false)
          ((mask.data.length : ℚ) * mask.spacing.headD 1)
      else
        -(listMinD (candidateDists mask.data (mask.spacing.headD 1) i true)
          ((mask.data.length : ℚ) * mask.spacing.headD 1)))
      ∈ signedMaurerDistanceMap mask.data (mask.spacing.headD 1) :=
    List.mem_map_of_mem _ (List.mem_range.mpr hi)
  have hvalpos : 0 < (if mask.data.getD i 0 ≠ 0 then
        listMinD (candidateDists mask.data (mask.spacing.headD 1) i false)
          ((mask.data.length : ℚ) * mask.spacing.headD 1)
      else
        -(listMinD (candidateDists mask.data (mask.spacing.headD 1) i true)
          ((mask.data.length : ℚ) * mask.spacing.headD 1))) := by
    rw [if_pos hfgv]
    apply listMinD_pos
    · intro y hy
      obtain ⟨j, hjr, hjeq⟩ := List.mem_filterMap.mp hy
      by_cases hc : (decide (mask.data.getD j 0 ≠ 0)) = false
      · rw [if_pos hc] at hjeq
        have hj0 : mask.data.getD j 0 = 0 := by simpa using hc
        simp only [Option.some_inj] at hjeq
        subst hjeq
        have hij : (i : ℚ) ≠ (j : ℚ) := by
          intro he
          have hij : i = j := Nat.cast_injective he
          subst hij
          exact hfgv hj0
        exact mul_pos (abs_pos.mpr (sub_ne_zero.mpr hij)) hsp
      · rw [if_neg hc] at hjeq; cases hjeq
    · have hn : 0 < mask.data.length := Nat.zero_lt_of_lt hi
      exact mul_pos (by exact_mod_cast hn) hsp
  have hmax : 0 < npMax (signedMaurerDistanceMap mask.data
      (mask.spacing.headD 1)) :=
    lt_of_lt_of_le hvalpos (le_npMax_of_mem hvalmem)
  have hne : signedMaurerDistanceMap mask.data (mask.spacing.headD 1) ≠ [] := by
    have hlen : (signedMaurerDistanceMap mask.data (mask.spacing.headD 1)).length
        = mask.data.length := by
      simp [signedMaurerDistanceMap]
    intro h
    rw [h] at hlen
    simp only [List.length_nil] at hlen
    omega
  rw [heq, npMax_map_div _ _ hmax hne, div_self (ne_of_gt hmax)]

/-- Witness for `convert_mask_to_distance_map_normalised_max` at the mask
`[0, 0, 0, 1]`. -/
theorem convert_mask_to_distance_map_normalised_max_witness :
    npMax (convert_mask_to_distance_map
      (Image.mk [4] [1] [0] [1] 1 [0, 0, 0, 1]) false true).data = 1 :=
  convert_mask_to_distance_map_normalised_max
    (Image.mk [4] [1] [0] [1] 1 [0, 0, 0, 1])
    (by norm_num [List.headD])
    ⟨3, by norm_num, by norm_num [List.getD]⟩
    ⟨0, by norm_num, by norm_num [List.getD]⟩

end Platipy
